import Mathlib

/-!
Verification of the eWeLink IoT integration core against its specification.

The Python sources are shallowly embedded: JSON-like attribute trees become the
inductive type `Val`, Python `dict`s become insertion-ordered association lists
with unique keys, fallible Python code returns `Except`, and numeric remaps are
carried out over `ℚ` with Python's banker's rounding made explicit.
-/

namespace EWeLink

/-- JSON-like values stored in a device attribute tree (`itemData` shape).
A Python `dict` is an insertion-ordered association list with string keys. -/
inductive Val where
  | vstr : String → Val
  | vint : Int → Val
  | vbool : Bool → Val
  | arr : List Val → Val
  | dict : List (String × Val) → Val

/-- Python `d[k]` read on a dict: first (and, for a real dict, only) binding. -/
def lookup {α : Type} : List (String × α) → String → Option α
  | [], _ => none
  | (k, v) :: rest, key => if k = key then some v else lookup rest key

/-- Python `d[k] = v` on a dict: replace in place if the key exists,
otherwise append at the end (insertion order). -/
def setKey {α : Type} : List (String × α) → String → α → List (String × α)
  | [], key, value => [(key, value)]
  | (k, v) :: rest, key, value =>
      if k = key then (k, value) :: rest else (k, v) :: setKey rest key value

/-- Python `k in d` on a dict. -/
def containsKey {α : Type} (d : List (String × α)) (key : String) : Bool :=
  (lookup d key).isSome

/-- Python `d.pop(k)` on a dict (the removal part). -/
def popKey {α : Type} : List (String × α) → String → List (String × α)
  | [], _ => []
  | (k, v) :: rest, key => if k = key then rest else (k, v) :: popKey rest key

/-- Embedding of `utils.merge(origin_dict, source_dict)`: for each key of the
source dict, if both the existing and the incoming values are dicts they are
merged recursively (in place), otherwise the incoming value is assigned;
absent keys are assigned (appended). Returns the mutated origin. -/
def merge (origin : List (String × Val)) : List (String × Val) → List (String × Val)
  | [] => origin
  | (key, Val.dict src) :: rest =>
      merge
        (match lookup origin key with
          | some (Val.dict sub) => setKey origin key (Val.dict (merge sub src))
          | _ => setKey origin key (Val.dict src))
        rest
  | (key, value) :: rest => merge (setKey origin key value) rest
termination_by s => sizeOf s

/-- The Python-dict invariant at the top level only: no duplicate keys. -/
def keysNodup : List (String × Val) → Bool
  | [] => true
  | (k, _) :: rest => !(containsKey rest k) && keysNodup rest

mutual

/-- The Python-dict invariant through a nested value: dict values have
recursively unique keys (arrays are never merged element-wise, so their
contents are not constrained). -/
def valNodup : Val → Bool
  | Val.dict d => entriesNodup d
  | _ => true

/-- The Python-dict invariant, enforced recursively through nested dict
values. -/
def entriesNodup : List (String × Val) → Bool
  | [] => true
  | (k, v) :: rest => !(containsKey rest k) && valNodup v && entriesNodup rest

end

/-- One iteration of `merge`'s loop body, factored out for reasoning. -/
def mergeStep (origin : List (String × Val)) (key : String) (value : Val) :
    List (String × Val) :=
  match lookup origin key, value with
  | some (Val.dict sub), Val.dict src => setKey origin key (Val.dict (merge sub src))
  | _, _ => setKey origin key value

/-- The value `merge` stores at a key, as a function of the two lookups. -/
def mergedLookup (oval sval : Option Val) : Option Val :=
  match oval, sval with
  | some (Val.dict a), some (Val.dict b) => some (Val.dict (merge a b))
  | _, some v => some v
  | ov, none => ov

/-! ### Decimal rendering of integers (Python f-string / `str`) -/

/-- The ASCII digit character for a digit below 10. -/
def digitChar (d : Nat) : Char := Char.ofNat (48 + d)

/-- Little-endian decimal digits of `n`, computed with explicit fuel so the
definition reduces in the kernel; `fuel ≥ n` suffices. -/
def decDigitsF : Nat → Nat → List Nat
  | 0, _ => []
  | fuel + 1, n => if n = 0 then [] else n % 10 :: decDigitsF fuel (n / 10)

/-- Big-endian decimal digit list of `n` (with `[0]` for zero). -/
def decReprDigits (n : Nat) : List Nat := if n = 0 then [0] else decDigitsF n n

/-- Python `str(n)` / `f-string` rendering of a non-negative integer. -/
def decRepr (n : Nat) : String := String.mk (((decReprDigits n).map digitChar).reverse)

/-- Python `str(n)` for a signed integer. -/
def intRepr (n : Int) : String :=
  if n < 0 then "-" ++ decRepr n.natAbs else decRepr n.natAbs

/-- Evaluation map for proofs: a little-endian digit list back to a number. -/
def fromDigits : List Nat → Nat
  | [] => 0
  | d :: rest => d + 10 * fromDigits rest

/-! ### Python value helpers -/

/-- Python truthiness of a JSON-like value (`bool(value)`). -/
def pyTruthy : Val → Bool
  | Val.vbool b => b
  | Val.vint n => !(n == 0)
  | Val.vstr s => !(s == "")
  | Val.arr a => !a.isEmpty
  | Val.dict d => !d.isEmpty

/-- Python `isinstance(value, numbers.Number)`: ints and bools qualify. -/
def pyIsNumber : Val → Bool
  | Val.vint _ => true
  | Val.vbool _ => true
  | _ => false

/-- Python f-string rendering of a numeric value (guarded by `pyIsNumber`). -/
def pyNumStr : Val → String
  | Val.vint n => intRepr n
  | Val.vbool b => cond b "True" "False"
  | _ => ""

/-- Python `float(value)` for the value shapes that occur in device params.
Fractional string literals are not modelled; no claim depends on them. -/
def pyFloat : Val → Except String ℚ
  | Val.vint n => Except.ok (n : ℚ)
  | Val.vbool b => Except.ok (if b then 1 else 0)
  | Val.vstr s =>
      match s.toInt? with
      | some n => Except.ok (n : ℚ)
      | none => Except.error "ValueError: could not convert string to float"
  | _ => Except.error "TypeError: float() argument is not a string or a real number"

/-- Python `int(value)` applied to an optional value (`None` raises). -/
def pyInt : Option Val → Except String Int
  | none => Except.error "TypeError: int() argument is None"
  | some (Val.vint n) => Except.ok n
  | some (Val.vbool b) => Except.ok (if b then 1 else 0)
  | some (Val.vstr s) =>
      match s.toInt? with
      | some n => Except.ok n
      | none => Except.error "ValueError: invalid literal for int()"
  | some _ => Except.error "TypeError: int() argument is not a string or a real number"

/-- Python `round(q)` over exact rationals: round half to even. -/
def pyRound (q : ℚ) : Int :=
  if q - ⌊q⌋ < 1 / 2 then ⌊q⌋
  else if 1 / 2 < q - ⌊q⌋ then ⌊q⌋ + 1
  else if ⌊q⌋ % 2 = 0 then ⌊q⌋ else ⌊q⌋ + 1

/-- Python `round(q, 1)`: round half to even at one decimal place. -/
def pyRound1 (q : ℚ) : ℚ := (pyRound (q * 10) : ℚ) / 10

/-! ### `utils.deep_get` -/

/-- A component of a `deep_get` path (`list[str | int]`). -/
inductive PathKey where
  | s : String → PathKey
  | i : Int → PathKey

/-- Python list indexing `a[n]` with negative-index wraparound. -/
def pyListGet (a : List Val) (n : Int) : Option Val :=
  let idx := if n < 0 then n + a.length else n
  if 0 ≤ idx then a.get? idx.toNat else none

/-- Embedding of `utils.deep_get`: walk the path through dicts and arrays,
returning the default (`none`, Python `None`) on any failure. -/
def deep_get : Val → List PathKey → Option Val
  | v, [] => some v
  | v, key :: rest =>
      match v, key with
      | Val.dict d, PathKey.s k =>
          match lookup d k with
          | some w => deep_get w rest
          | none => none
      | Val.arr a, PathKey.i n =>
          match pyListGet a n with
          | some w => deep_get w rest
          | none => none
      | _, _ => none

/-! ### Capability adapters (`uiid` package) -/

def SINGLE_PROTOCOL_UIIDS : List Int := [1]

def MULTIPLE_SINGLE_PROTOCOL_UIIDS : List Int := [191]

def MULTIPLE_UIIDS : List Int := []

def SWITCH_STATE_ON : String := "on"

def SWITCH_STATE_OFF : String := "off"

/-- Embedding of `Uiid.gen_control_switch_params`: multi-relay families get a
`switches` array over outlets `0..3`, others a flat `switch` field. -/
def gen_control_switch_params (uiid : Int) (is_on : Bool) : Val :=
  let target := if is_on then SWITCH_STATE_ON else SWITCH_STATE_OFF
  if uiid ∈ MULTIPLE_SINGLE_PROTOCOL_UIIDS then
    Val.dict [("switches", Val.arr ((List.range 4).map fun i =>
      Val.dict [("switch", Val.vstr (if i = 0 then target else SWITCH_STATE_OFF)),
                ("outlet", Val.vint i)]))]
  else
    Val.dict [("switch", Val.vstr target)]

/-- Embedding of `Uiid.get_rssi_value`: the raw `params.rssi` value or `None`. -/
def get_rssi_value (device : List (String × Val)) : Option Val :=
  deep_get (Val.dict device) [PathKey.s "itemData", PathKey.s "params", PathKey.s "rssi"]

/-- Embedding of `Uiid.get_temperature_value`: `round(float(v) / 100, 1)` when
the field is present, `None` when absent. -/
def get_temperature_value (device : List (String × Val)) : Except String (Option ℚ) :=
  match deep_get (Val.dict device) [PathKey.s "itemData", PathKey.s "params", PathKey.s "temperature"] with
  | some v =>
      match pyFloat v with
      | Except.ok q => Except.ok (some (pyRound1 (q / 100)))
      | Except.error e => Except.error e
  | none => Except.ok none

/-- Embedding of `Uiid.get_humidity_value`, same shape as temperature. -/
def get_humidity_value (device : List (String × Val)) : Except String (Option ℚ) :=
  match deep_get (Val.dict device) [PathKey.s "itemData", PathKey.s "params", PathKey.s "humidity"] with
  | some v =>
      match pyFloat v with
      | Except.ok q => Except.ok (some (pyRound1 (q / 100)))
      | Except.error e => Except.error e
  | none => Except.ok none

/-- Embedding of `Uiid.get_battery_value`: a numeric value is rounded
(`round` of an int or bool is itself); any other value, including the `None`
obtained when the field is absent, goes through `round(int(value))`, and
`int(None)` raises `TypeError`. -/
def get_battery_value (device : List (String × Val)) : Except String Int :=
  match deep_get (Val.dict device) [PathKey.s "itemData", PathKey.s "params", PathKey.s "battery"] with
  | some (Val.vint n) => Except.ok n
  | some (Val.vbool b) => Except.ok (if b then 1 else 0)
  | v =>
      match pyInt v with
      | Except.ok n => Except.ok n
      | Except.error e => Except.error e

/-- Modelled from the spec: `map_value_general` lives in `src/uiid/utils.py`,
which is absent from the sources; §4.1 describes it as the linear remap
between the native numeric range and the external-facing range. -/
def map_value_general (value : ℚ) (fromRange toRange : ℚ × ℚ) : ℚ :=
  toRange.1 + (value - fromRange.1) * (toRange.2 - toRange.1) / (fromRange.2 - fromRange.1)

/-- `Uiid104.ewelink_brightness_range`. -/
def ewelink_brightness_range : ℚ × ℚ := (1, 100)

/-- `Uiid.ha_brightness_range`. -/
def ha_brightness_range : ℚ × ℚ := (1, 255)

/-- Numeric core of `Uiid104.get_brightess`: native `br` remapped to the
external 1..255 range with Python rounding. -/
def get_brightess (br : Int) : Int :=
  pyRound (map_value_general br ewelink_brightness_range ha_brightness_range)

/-- Numeric core of `Uiid104.gen_control_brightness_params`: external
brightness remapped to the native 1..100 range with Python rounding. -/
def gen_control_brightness (brightness : Int) : Int :=
  pyRound (map_value_general brightness ha_brightness_range ewelink_brightness_range)

/-! ### Coordinator (`coordinator.py`) -/

/-- Modelled from the spec: action-tag constants from `const.py` (absent from
the sources); §6 lists the recognized inbound action values. -/
def WS_MSG_ACTION_UPDATE : String := "update"

/-- Modelled from the spec: the system-message action tag from `const.py`. -/
def WS_MSG_ACTION_SYSMSG : String := "sysmsg"

/-- `Uiid174` is the only adapter declaring a non-empty `event_types` list. -/
def uiid_event_types : Int → List String
  | 174 => ["single_press", "double_press", "long_press"]
  | _ => []

/-- The `event_types` of `get_uiid_instance(uiid)` for a raw uiid value:
non-int family ids resolve to the default adapter, which has none. -/
def val_event_types : Val → List String
  | Val.vint n => uiid_event_types n
  | _ => []

/-- Embedding of `utils.gen_event_callback_key` at the coordinator's call
site (`component` keeps its default value `"event"`). -/
def gen_event_callback_key (device_id : String) (outlet : Val) : String :=
  "event_" ++ device_id ++ "_" ++ pyNumStr outlet

/-- Embedding of `utils.get_device_uiid`:
`deep_get(device, ["itemData", "extra", "uiid"], None)`. -/
def get_device_uiid (device : List (String × Val)) : Option Val :=
  deep_get (Val.dict device) [PathKey.s "itemData", PathKey.s "extra", PathKey.s "uiid"]

/-- Coordinator state: the device store (`self.data`, device id to attribute
tree), registered event handler keys (`event_handler_map`), and a log of
handler invocations standing in for the callbacks themselves. -/
structure CoordState where
  data : List (String × List (String × Val))
  handlers : List String
  events : List (String × Val × Val)

/-- Embedding of `EWeLinkDataCoordinator.update_entity_state`: unknown device
ids return immediately; otherwise a declared-event family dispatches its
handler (`event_handler_map[...]` raises `KeyError` when unregistered) and the
push params are deep-merged under `itemData.params`. -/
def update_entity_state (st : CoordState) (device_id : String) (params : Val) :
    Except String CoordState :=
  match lookup st.data device_id with
  | none => Except.ok st
  | some device =>
      match get_device_uiid device with
      | none => Except.ok st
      | some uiid =>
          let afterEvents : Except String CoordState :=
            if 0 < (val_event_types uiid).length then
              let outlet := (deep_get params [PathKey.s "outlet"]).getD (Val.vint 0)
              let key := deep_get params [PathKey.s "key"]
              match key with
              | some keyV =>
                  if pyIsNumber outlet && pyIsNumber keyV then
                    let handler_key := gen_event_callback_key device_id outlet
                    if handler_key ∈ st.handlers then
                      Except.ok { st with events := st.events ++ [(handler_key, outlet, keyV)] }
                    else
                      Except.error "KeyError: event handler is not registered"
                  else Except.ok st
              | none => Except.ok st
            else Except.ok st
          match afterEvents with
          | Except.error e => Except.error e
          | Except.ok st1 =>
              let newDevice := merge device [("itemData", Val.dict [("params", params)])]
              Except.ok { st1 with data := setKey st1.data device_id newDevice }

/-- Embedding of `EWeLinkDataCoordinator.update_entity_available`: unknown
device ids return immediately; otherwise `itemData.online` is set to
`bool(online)`. -/
def update_entity_available (st : CoordState) (device_id : String) (online : Val) :
    CoordState :=
  match lookup st.data device_id with
  | none => st
  | some device =>
      let newDevice := merge device [("itemData", Val.dict [("online", Val.vbool (pyTruthy online))])]
      { st with data := setKey st.data device_id newDevice }

/-! ### WebSocket client (`websocket.py`) -/

/-- A decoded inbound frame (`ws_message_json`), with the fields the handler
reads. -/
structure WsMsg where
  sequence : Option String
  action : Option String
  deviceid : Option String
  params : Option Val

/-- A locally synthesized or remote ack dict returned by `control_device`. -/
structure Ack where
  error : Int
  sequence : Option String
  msg : Option String
deriving DecidableEq

/-- The locally synthesized timeout ack. -/
def timeoutAck (seq : String) : Ack :=
  { error := 408, sequence := some seq, msg := some "Request Timeout" }

/-- The fail-fast ack for a send while disconnected (or missing device). -/
def notConnectedAck : Ack :=
  { error := -1, sequence := none, msg := some "ws not connect or device is not exist." }

/-- `str(ws_message_json.get("sequence"))`: Python renders a missing field
(`None`) as the string `"None"`. -/
def pyStrOfJson : Option String → String
  | some s => s
  | none => "None"

/-- WebSocket client state: the pending-response table (sequence to future),
a fresh-future counter, the log of resolved futures (`set_result` calls), and
the coordinator reached through the handler dict. -/
structure WsClientState where
  pending : List (String × Nat)
  nextFut : Nat
  resolved : List (Nat × WsMsg)
  coord : CoordState

/-- The dict invariant (no duplicate keys) for a pending table. -/
def tableNodup {α : Type} : List (String × α) → Bool
  | [] => true
  | (k, _) :: rest => !(containsKey rest k) && tableNodup rest

/-- Embedding of `EWeLinkWebSocketClient.__handle_ws_message` on a decoded
frame: resolve a pending future matched by sequence, then dispatch `update`
frames to `update_entity_state` and `sysmsg` frames carrying `online` to
`update_entity_available`. -/
def handle_ws_message (st : WsClientState) (m : WsMsg) : Except String WsClientState :=
  let seq := pyStrOfJson m.sequence
  let st1 :=
    if seq != "" && containsKey st.pending seq then
      match lookup st.pending seq with
      | some fut =>
          { st with pending := popKey st.pending seq, resolved := st.resolved ++ [(fut, m)] }
      | none => st
    else st
  if m.action == some WS_MSG_ACTION_UPDATE then
    match m.deviceid, m.params with
    | some deviceid, some params =>
        match update_entity_state st1.coord deviceid params with
        | Except.ok c => Except.ok { st1 with coord := c }
        | Except.error e => Except.error e
    | _, _ => Except.ok st1
  else if m.action == some WS_MSG_ACTION_SYSMSG then
    match m.deviceid, m.params with
    | some deviceid, some params =>
        match params with
        | Val.dict pd =>
            if containsKey pd "online" then
              Except.ok { st1 with coord :=
                update_entity_available st1.coord deviceid ((lookup pd "online").getD (Val.vbool false)) }
            else Except.ok st1
        | _ => Except.ok st1
    | _, _ => Except.ok st1
  else Except.ok st1

/-- What `control_device` does before any await: fail-fast ack, or a
registered pending slot followed by a 10s wait (or an immediate `None` when
the socket handle is missing). -/
inductive ControlOutcome where
  | immediateAck : Ack → ControlOutcome
  | awaitReply : String → ControlOutcome
  | returnedNone : ControlOutcome
deriving DecidableEq

/-- `sequence = f"{now_timestamp()}"`: the correlation id derived from the
millisecond timestamp. -/
def genSequence (t : Nat) : String := decRepr t

/-- Embedding of the synchronous prefix of
`EWeLinkWebSocketClient.control_device`: the guard, the correlation-id
registration (`self.__pending_responses[sequence] = future`), and which of
the three continuations follows. `t` is the value of `now_timestamp()`. -/
def control_device_send (st : WsClientState) (connected deviceExists wsPresent : Bool)
    (t : Nat) : WsClientState × ControlOutcome :=
  if !connected || !deviceExists then
    (st, ControlOutcome.immediateAck notConnectedAck)
  else
    let seq := genSequence t
    let st1 := { st with pending := setKey st.pending seq st.nextFut, nextFut := st.nextFut + 1 }
    if wsPresent then (st1, ControlOutcome.awaitReply seq)
    else (st1, ControlOutcome.returnedNone)

/-- Embedding of `control_device`'s `except TimeoutError` branch: drop the
correlation id from the pending table (if still present) and synthesize the
408 ack. -/
def control_device_timeout (st : WsClientState) (seq : String) : WsClientState × Ack :=
  (if containsKey st.pending seq then { st with pending := popKey st.pending seq } else st,
   timeoutAck seq)

/-! ### Reconnect backoff (`connect_and_reconnect`) -/

/-- `self.__reconnect_delay_time = 5` executed at the entry of
`connect_and_reconnect`: a fresh connect session starts at 5s regardless of
the previous delay, success-independent. -/
def reconnect_entry_delay (_previous : Nat) : Nat := 5

/-- `self.__reconnect_delay_time = min(60, self.__reconnect_delay_time + 5)`
after each failed connect/disconnect cycle. -/
def next_reconnect_delay (d : Nat) : Nat := min 60 (d + 5)

/-- The delay slept before the `n`-th retry within one
`connect_and_reconnect` session (the first sleep uses the entry value 5). -/
def reconnect_delay_seq : Nat → Nat
  | 0 => reconnect_entry_delay 0
  | n + 1 => next_reconnect_delay (reconnect_delay_seq n)

theorem lookup_setKey_self {α : Type} (d : List (String × α)) (k : String) (v : α) :
    lookup (setKey d k v) k = some v := by
  induction d with
  | nil => simp [setKey, lookup]
  | cons hd rest ih =>
    obtain ⟨k1, v1⟩ := hd
    by_cases h : k1 = k <;> simp [setKey, lookup, h, ih]

theorem lookup_setKey_ne {α : Type} (d : List (String × α)) {k' k : String} (v : α)
    (h : k' ≠ k) : lookup (setKey d k' v) k = lookup d k := by
  induction d with
  | nil => simp [setKey, lookup, h]
  | cons hd rest ih =>
    obtain ⟨k1, v1⟩ := hd
    by_cases h1 : k1 = k' <;> simp [setKey, lookup, h1, ih]
    subst h1
    simp [h]

theorem setKey_lookup_eq {α : Type} {d : List (String × α)} {k : String} {v : α}
    (h : lookup d k = some v) : setKey d k v = d := by
  induction d with
  | nil => simp [lookup] at h
  | cons hd rest ih =>
    obtain ⟨k1, v1⟩ := hd
    by_cases h1 : k1 = k
    · subst h1
      simp [lookup] at h
      simp [setKey, h]
    · simp [lookup, h1] at h
      simp [setKey, h1, ih h]

theorem containsKey_eq_false {α : Type} {d : List (String × α)} {k : String} :
    containsKey d k = false ↔ lookup d k = none := by
  cases h : lookup d k <;> simp [containsKey, h]

theorem merge_nil (o : List (String × Val)) : merge o [] = o := by
  simp [merge]

theorem merge_cons (o : List (String × Val)) (key : String) (value : Val)
    (rest : List (String × Val)) :
    merge o ((key, value) :: rest) = merge (mergeStep o key value) rest := by
  cases value <;> rcases ho : lookup o key with _ | w <;> try cases w
  all_goals simp [merge, mergeStep, ho]

theorem mergeStep_eq_setKey (o : List (String × Val)) (k : String) (v : Val) :
    ∃ u, mergeStep o k v = setKey o k u := by
  unfold mergeStep
  rcases ho : lookup o k with _ | w
  · cases v <;> exact ⟨_, rfl⟩
  · cases w <;> cases v <;> exact ⟨_, rfl⟩

theorem mergedLookup_none (ov : Option Val) : mergedLookup ov none = ov := by
  rcases ov with _ | w
  · rfl
  · cases w <;> rfl

/-- Key-wise characterization of `merge`: for each key, if both values are
dicts the merge is recursive, otherwise the incoming value wins, and keys
absent from the source keep the origin's value. -/
theorem lookup_merge (o s : List (String × Val)) (h : keysNodup s = true) (k : String) :
    lookup (merge o s) k = mergedLookup (lookup o k) (lookup s k) := by
  induction s generalizing o with
  | nil => simp [merge, lookup, mergedLookup_none]
  | cons hd tl ih =>
    obtain ⟨k', v'⟩ := hd
    simp only [keysNodup, Bool.and_eq_true, Bool.not_eq_true'] at h
    obtain ⟨hc, htl⟩ := h
    rw [merge_cons, ih _ htl]
    by_cases hk : k' = k
    · subst hk
      rw [containsKey_eq_false.mp hc]
      rw [mergedLookup_none]
      simp only [lookup, if_pos rfl]
      rcases ho : lookup o k' with _ | w
      · cases v' <;>
          simp [mergeStep, ho, lookup_setKey_self, mergedLookup]
      · cases w <;> cases v' <;>
          simp [mergeStep, ho, lookup_setKey_self, mergedLookup]
    · obtain ⟨u, hu⟩ := mergeStep_eq_setKey o k' v'
      rw [hu, lookup_setKey_ne _ _ hk]
      simp [lookup, hk]

theorem lookup_of_mem_nodup {d : List (String × Val)} {k : String} {v : Val}
    (hn : keysNodup d = true) (hm : (k, v) ∈ d) : lookup d k = some v := by
  induction d with
  | nil => cases hm
  | cons hd rest ih =>
    obtain ⟨k1, v1⟩ := hd
    simp only [keysNodup, Bool.and_eq_true, Bool.not_eq_true'] at hn
    obtain ⟨hc, hrest⟩ := hn
    rcases List.mem_cons.mp hm with heq | hmem
    · obtain ⟨rfl, rfl⟩ := Prod.mk.injEq .. ▸ heq
      simp [lookup]
    · have hlk : lookup rest k = some v := ih hrest hmem
      have hk : k1 ≠ k := by
        intro h
        subst h
        rw [containsKey_eq_false.mp hc] at hlk
        cases hlk
      simp [lookup, hk, hlk]

theorem keysNodup_of_entriesNodup {d : List (String × Val)}
    (h : entriesNodup d = true) : keysNodup d = true := by
  induction d with
  | nil => rfl
  | cons hd rest ih =>
    obtain ⟨k, v⟩ := hd
    simp only [entriesNodup, Bool.and_eq_true] at h
    simp only [keysNodup, Bool.and_eq_true]
    exact ⟨h.1.1, ih h.2⟩

theorem entriesNodup_of_mem_dict {d : List (String × Val)} {k : String}
    {src : List (String × Val)} (h : entriesNodup d = true)
    (hm : (k, Val.dict src) ∈ d) : entriesNodup src = true := by
  induction d with
  | nil => cases hm
  | cons hd rest ih =>
    obtain ⟨k1, v1⟩ := hd
    simp only [entriesNodup, Bool.and_eq_true] at h
    rcases List.mem_cons.mp hm with heq | hmem
    · obtain ⟨rfl, rfl⟩ := Prod.mk.injEq .. ▸ heq
      have := h.1.2
      simpa [valNodup] using this
    · exact ih h.2 hmem

theorem sizeOf_val_lt_of_mem {d : List (String × Val)} {k : String} {v : Val}
    (hm : (k, v) ∈ d) : sizeOf v < sizeOf d := by
  have h1 : sizeOf (k, v) < sizeOf d := List.sizeOf_lt_of_mem hm
  have h2 : sizeOf v < sizeOf (k, v) := by
    simp only [Prod.mk.sizeOf_spec]
    omega
  omega

/-- If every step of `merge`'s loop leaves the accumulator unchanged, so does
the whole merge. -/
theorem merge_eq_self {d s : List (String × Val)}
    (h : ∀ k v, (k, v) ∈ s → mergeStep d k v = d) : merge d s = d := by
  induction s with
  | nil => exact merge_nil d
  | cons hd tl ih =>
    obtain ⟨k, v⟩ := hd
    rw [merge_cons, h k v (List.mem_cons_self _ _)]
    exact ih fun k' v' hm => h k' v' (List.mem_cons_of_mem _ hm)

theorem merge_self_aux :
    ∀ n b, sizeOf b ≤ n → entriesNodup b = true → merge b b = b := by
  intro n
  induction n with
  | zero =>
    intro b hb
    exact absurd hb (by cases b <;> simp)
  | succ n ih =>
    intro b hb hnd
    apply merge_eq_self
    intro k v hm
    have hl : lookup b k = some v := lookup_of_mem_nodup (keysNodup_of_entriesNodup hnd) hm
    cases v with
    | dict src =>
      have hsz : sizeOf src ≤ n := by
        have h1 := sizeOf_val_lt_of_mem hm
        have h2 : sizeOf src < sizeOf (Val.dict src) := by simp
        omega
      have hrec : merge src src = src :=
        ih src hsz (entriesNodup_of_mem_dict hnd hm)
      simp only [mergeStep, hl, hrec]
      exact setKey_lookup_eq hl
    | vstr s => simp only [mergeStep, hl]; exact setKey_lookup_eq hl
    | vint i => simp only [mergeStep, hl]; exact setKey_lookup_eq hl
    | vbool b' => simp only [mergeStep, hl]; exact setKey_lookup_eq hl
    | arr a => simp only [mergeStep, hl]; exact setKey_lookup_eq hl

theorem merge_self {b : List (String × Val)} (h : entriesNodup b = true) :
    merge b b = b :=
  merge_self_aux (sizeOf b) b le_rfl h

theorem merge_idem_aux :
    ∀ n s, sizeOf s ≤ n → entriesNodup s = true →
      ∀ o, merge (merge o s) s = merge o s := by
  intro n
  induction n with
  | zero =>
    intro s hs
    exact absurd hs (by cases s <;> simp)
  | succ n ih =>
    intro s hs hnd o
    apply merge_eq_self
    intro k v hm
    have hks : keysNodup s = true := keysNodup_of_entriesNodup hnd
    have hl : lookup s k = some v := lookup_of_mem_nodup hks hm
    have hd : lookup (merge o s) k = mergedLookup (lookup o k) (some v) := by
      rw [lookup_merge o s hks k, hl]
    cases v with
    | dict src =>
      have hsz : sizeOf src ≤ n := by
        have h1 := sizeOf_val_lt_of_mem hm
        have h2 : sizeOf src < sizeOf (Val.dict src) := by simp
        omega
      have hnsrc : entriesNodup src = true := entriesNodup_of_mem_dict hnd hm
      rcases ho : lookup o k with _ | w
      · rw [ho] at hd
        have hd' : lookup (merge o s) k = some (Val.dict src) := hd
        simp only [mergeStep, hd']
        rw [merge_self_aux n src hsz hnsrc]
        exact setKey_lookup_eq hd'
      · rw [ho] at hd
        cases w with
        | dict a =>
          have hd' : lookup (merge o s) k = some (Val.dict (merge a src)) := hd
          simp only [mergeStep, hd']
          rw [ih src hsz hnsrc a]
          exact setKey_lookup_eq hd'
        | vstr s' =>
          have hd' : lookup (merge o s) k = some (Val.dict src) := hd
          simp only [mergeStep, hd']
          rw [merge_self_aux n src hsz hnsrc]
          exact setKey_lookup_eq hd'
        | vint i =>
          have hd' : lookup (merge o s) k = some (Val.dict src) := hd
          simp only [mergeStep, hd']
          rw [merge_self_aux n src hsz hnsrc]
          exact setKey_lookup_eq hd'
        | vbool b' =>
          have hd' : lookup (merge o s) k = some (Val.dict src) := hd
          simp only [mergeStep, hd']
          rw [merge_self_aux n src hsz hnsrc]
          exact setKey_lookup_eq hd'
        | arr a =>
          have hd' : lookup (merge o s) k = some (Val.dict src) := hd
          simp only [mergeStep, hd']
          rw [merge_self_aux n src hsz hnsrc]
          exact setKey_lookup_eq hd'
    | vstr s' =>
      have hd' : lookup (merge o s) k = some (Val.vstr s') := by
        rw [hd]
        rcases lookup o k with _ | w
        · rfl
        · cases w <;> rfl
      simp only [mergeStep, hd']
      exact setKey_lookup_eq hd'
    | vint i =>
      have hd' : lookup (merge o s) k = some (Val.vint i) := by
        rw [hd]
        rcases lookup o k with _ | w
        · rfl
        · cases w <;> rfl
      simp only [mergeStep, hd']
      exact setKey_lookup_eq hd'
    | vbool b' =>
      have hd' : lookup (merge o s) k = some (Val.vbool b') := by
        rw [hd]
        rcases lookup o k with _ | w
        · rfl
        · cases w <;> rfl
      simp only [mergeStep, hd']
      exact setKey_lookup_eq hd'
    | arr a =>
      have hd' : lookup (merge o s) k = some (Val.arr a) := by
        rw [hd]
        rcases lookup o k with _ | w
        · rfl
        · cases w <;> rfl
      simp only [mergeStep, hd']
      exact setKey_lookup_eq hd'

theorem merge_idem {s : List (String × Val)} (h : entriesNodup s = true)
    (o : List (String × Val)) : merge (merge o s) s = merge o s :=
  merge_idem_aux (sizeOf s) s le_rfl h o

/-! ### Decimal rendering: injectivity -/

theorem decDigitsF_fromDigits : ∀ fuel n, n ≤ fuel → fromDigits (decDigitsF fuel n) = n := by
  intro fuel
  induction fuel with
  | zero =>
    intro n hn
    interval_cases n
    rfl
  | succ fuel ih =>
    intro n hn
    by_cases h0 : n = 0
    · subst h0
      simp [decDigitsF, fromDigits]
    · have hdiv : n / 10 ≤ fuel := by
        have := Nat.div_lt_self (Nat.pos_of_ne_zero h0) (by omega : 1 < 10)
        omega
      simp only [decDigitsF, if_neg h0, fromDigits, ih _ hdiv]
      omega

theorem decDigitsF_lt_ten : ∀ fuel n d, d ∈ decDigitsF fuel n → d < 10 := by
  intro fuel
  induction fuel with
  | zero => intro n d hd; cases hd
  | succ fuel ih =>
    intro n d hd
    by_cases h0 : n = 0
    · subst h0; simp [decDigitsF] at hd
    · simp only [decDigitsF, if_neg h0] at hd
      rcases List.mem_cons.mp hd with rfl | hmem
      · exact Nat.mod_lt _ (by omega)
      · exact ih _ _ hmem

theorem decReprDigits_fromDigits (n : Nat) : fromDigits (decReprDigits n) = n := by
  unfold decReprDigits
  by_cases h0 : n = 0
  · subst h0; simp [fromDigits]
  · rw [if_neg h0]
    exact decDigitsF_fromDigits n n le_rfl

theorem decReprDigits_lt_ten (n : Nat) : ∀ d ∈ decReprDigits n, d < 10 := by
  unfold decReprDigits
  by_cases h0 : n = 0
  · subst h0
    intro d hd
    simp at hd
    omega
  · rw [if_neg h0]
    exact fun d hd => decDigitsF_lt_ten n n d hd

theorem digitChar_inj : ∀ d1, d1 < 10 → ∀ d2, d2 < 10 →
    digitChar d1 = digitChar d2 → d1 = d2 := by decide

theorem map_digitChar_inj : ∀ (l1 l2 : List Nat), (∀ d ∈ l1, d < 10) → (∀ d ∈ l2, d < 10) →
    l1.map digitChar = l2.map digitChar → l1 = l2 := by
  intro l1
  induction l1 with
  | nil =>
    intro l2 _ _ h
    cases l2 with
    | nil => rfl
    | cons b bs => simp at h
  | cons a as ih =>
    intro l2 h1 h2 h
    cases l2 with
    | nil => simp at h
    | cons b bs =>
      simp only [List.map_cons, List.cons.injEq] at h
      have ha : a = b :=
        digitChar_inj a (h1 a (List.mem_cons_self _ _)) b (h2 b (List.mem_cons_self _ _)) h.1
      have hs : as = bs :=
        ih bs (fun d hd => h1 d (List.mem_cons_of_mem _ hd))
          (fun d hd => h2 d (List.mem_cons_of_mem _ hd)) h.2
      rw [ha, hs]

theorem decRepr_inj {m n : Nat} (h : decRepr m = decRepr n) : m = n := by
  unfold decRepr at h
  have hdata := congrArg String.data h
  simp only at hdata
  have hrev := List.reverse_injective hdata
  have hdigits : decReprDigits m = decReprDigits n :=
    map_digitChar_inj _ _ (decReprDigits_lt_ten m) (decReprDigits_lt_ten n) hrev
  have := congrArg fromDigits hdigits
  rwa [decReprDigits_fromDigits, decReprDigits_fromDigits] at this

/-! ### Pending-table lemmas -/

theorem lookup_popKey_self {α : Type} {p : List (String × α)} (h : tableNodup p = true)
    (k : String) : lookup (popKey p k) k = none := by
  induction p with
  | nil => rfl
  | cons hd rest ih =>
    obtain ⟨k1, v1⟩ := hd
    simp only [tableNodup, Bool.and_eq_true, Bool.not_eq_true'] at h
    by_cases hk : k1 = k
    · subst hk
      simp only [popKey, if_pos rfl]
      exact containsKey_eq_false.mp h.1
    · simp only [popKey, if_neg hk, lookup, if_neg hk]
      exact ih h.2

/-! ### Python rounding -/

theorem pyRound_bounds (q : ℚ) : ⌊q⌋ ≤ pyRound q ∧ pyRound q ≤ ⌊q⌋ + 1 := by
  unfold pyRound
  split_ifs <;> omega

theorem pyRound_abs_le (q : ℚ) : |(pyRound q : ℚ) - q| ≤ 1 / 2 := by
  have h0 : (⌊q⌋ : ℚ) ≤ q := Int.floor_le q
  have h1 : q < ⌊q⌋ + 1 := Int.lt_floor_add_one q
  unfold pyRound
  split_ifs with ha hb hc <;> push_cast <;> rw [abs_le] <;> constructor <;> linarith

theorem pyRound_eq_of_close {q : ℚ} {n : Int} (h : |q - (n : ℚ)| < 1 / 2) : pyRound q = n := by
  rw [abs_lt] at h
  obtain ⟨hlo, hhi⟩ := h
  rcases le_or_lt (n : ℚ) q with hge | hlt
  · have hf : ⌊q⌋ = n := by
      rw [Int.floor_eq_iff]
      refine ⟨hge, ?_⟩
      linarith
    unfold pyRound
    rw [hf, if_pos (by rw [hf] at *; linarith)]
  · have hf : ⌊q⌋ = n - 1 := by
      rw [Int.floor_eq_iff]
      push_cast
      constructor <;> linarith
    unfold pyRound
    rw [hf, if_neg (by push_cast; linarith), if_pos (by push_cast; linarith)]
    omega

theorem pyRound_mono {q r : ℚ} (h : q ≤ r) : pyRound q ≤ pyRound r := by
  have hf : ⌊q⌋ ≤ ⌊r⌋ := Int.floor_le_floor h
  rcases eq_or_lt_of_le hf with heq | hlt
  · unfold pyRound
    rw [← heq]
    have hfr : (⌊q⌋ : ℚ) = (⌊r⌋ : ℚ) := by exact_mod_cast heq
    split_ifs <;> first | omega | (exfalso; rw [← hfr] at *; linarith)
  · have hq := (pyRound_bounds q).2
    have hr := (pyRound_bounds r).1
    omega

/-! ### Reconnect backoff invariant -/

theorem reconnect_delay_invariant (n : Nat) :
    5 ≤ reconnect_delay_seq n ∧ reconnect_delay_seq n ≤ 60 ∧ reconnect_delay_seq n % 5 = 0 := by
  induction n with
  | zero => simp [reconnect_delay_seq, reconnect_entry_delay]
  | succ n ih =>
    simp only [reconnect_delay_seq, next_reconnect_delay]
    omega

/-! ### The claims -/

/-- C1: deep merge of a partial params sub-tree into a stored state is
key-wise non-destructive: for every pair of dicts (the source dict carrying
the Python no-duplicate-keys invariant) and each key of the incoming dict,
if both the existing and the incoming value are dicts they are merged
recursively, otherwise the incoming value replaces the existing one; keys of
the existing state absent from the incoming payload are never removed. -/
theorem c1_deep_merge_keywise (o s : List (String × Val)) (h : keysNodup s = true)
    (k : String) :
    (∀ a b, lookup o k = some (Val.dict a) → lookup s k = some (Val.dict b) →
      lookup (merge o s) k = some (Val.dict (merge a b)))
    ∧ (∀ v, lookup s k = some v →
        (∀ a b, ¬(lookup o k = some (Val.dict a) ∧ v = Val.dict b)) →
        lookup (merge o s) k = some v)
    ∧ (lookup s k = none → lookup (merge o s) k = lookup o k) := by
  refine ⟨?_, ?_, ?_⟩
  · intro a b ha hb
    rw [lookup_merge o s h k, ha, hb]
    rfl
  · intro v hv hnot
    rw [lookup_merge o s h k, hv]
    rcases ho : lookup o k with _ | w
    · cases v <;> rfl
    · cases w <;> cases v <;>
        first
          | rfl
          | exact absurd ⟨ho, rfl⟩ (hnot _ _)
  · intro hnone
    rw [lookup_merge o s h k, hnone, mergedLookup_none]

/-- Witness for C1 at a concrete pair of dicts: key `b` holds dicts on both
sides and is merged recursively. -/
theorem c1_witness :
    keysNodup [("b", Val.dict [("x", Val.vint 3)]), ("c", Val.vstr "new")] = true
    ∧ lookup (merge [("a", Val.vint 1), ("b", Val.dict [("x", Val.vint 2), ("y", Val.vint 5)])]
        [("b", Val.dict [("x", Val.vint 3)]), ("c", Val.vstr "new")]) "b"
      = some (Val.dict (merge [("x", Val.vint 2), ("y", Val.vint 5)] [("x", Val.vint 3)])) := by
  refine ⟨rfl, ?_⟩
  exact (c1_deep_merge_keywise
    [("a", Val.vint 1), ("b", Val.dict [("x", Val.vint 2), ("y", Val.vint 5)])]
    [("b", Val.dict [("x", Val.vint 3)]), ("c", Val.vstr "new")] rfl "b").1 _ _ rfl rfl

/-- C4: merging the empty dict leaves any state unchanged, and merging the
same partial update (with the Python dict invariant) twice yields exactly the
state obtained by merging it once. -/
theorem c4_merge_identity_and_idempotent :
    (∀ o : List (String × Val), merge o [] = o)
    ∧ ∀ s : List (String × Val), entriesNodup s = true →
        ∀ o, merge (merge o s) s = merge o s :=
  ⟨merge_nil, fun _ hs o => merge_idem hs o⟩

/-- Witness for C4 at a concrete state and nested partial update. -/
theorem c4_witness :
    merge (merge [("a", Val.vint 1)] [("b", Val.dict [("c", Val.vint 2)])])
        [("b", Val.dict [("c", Val.vint 2)])]
      = merge [("a", Val.vint 1)] [("b", Val.dict [("c", Val.vint 2)])] :=
  c4_merge_identity_and_idempotent.2 _
    (by simp [entriesNodup, valNodup, containsKey, lookup]) _

/-- C3: within one `connect_and_reconnect` session the reconnect delay starts
at 5s, steps by `min 60 (d + 5)` after each failed cycle (hence is
non-decreasing, capped at 60s, and grows by exactly 5s while below the cap),
and the entry assignment resets the delay to 5s whenever a fresh connect
session starts, regardless of the previous value (not only after success). -/
theorem c3_reconnect_backoff :
    reconnect_delay_seq 0 = 5
    ∧ (∀ d, reconnect_entry_delay d = 5)
    ∧ (∀ n, reconnect_delay_seq (n + 1) = min 60 (reconnect_delay_seq n + 5))
    ∧ (∀ n, reconnect_delay_seq n ≤ reconnect_delay_seq (n + 1))
    ∧ (∀ n, reconnect_delay_seq n ≤ 60)
    ∧ (∀ n, reconnect_delay_seq n < 60 →
        reconnect_delay_seq (n + 1) = reconnect_delay_seq n + 5) := by
  refine ⟨rfl, fun _ => rfl, fun _ => rfl, ?_, ?_, ?_⟩
  · intro n
    have := reconnect_delay_invariant n
    simp only [reconnect_delay_seq, next_reconnect_delay]
    omega
  · intro n
    exact (reconnect_delay_invariant n).2.1
  · intro n h
    have := reconnect_delay_invariant n
    simp only [reconnect_delay_seq, next_reconnect_delay]
    omega

/-- Witness for C3: below the cap the delay grows by exactly 5s. -/
theorem c3_witness :
    reconnect_delay_seq 0 < 60 ∧ reconnect_delay_seq 1 = reconnect_delay_seq 0 + 5 :=
  ⟨by decide, c3_reconnect_backoff.2.2.2.2.2 0 (by decide)⟩

/-- C2: when a registered command (sequence present in the healthy
connection's pending table) times out, the caller receives the locally
synthesized `{error: 408, sequence, msg: "Request Timeout"}` ack, the pending
table no longer contains the correlation id, and handling a matching reply
frame that arrives afterwards (a pure ack, no action tag) changes nothing:
the state is untouched and no future is resolved, so each correlation id is
resolved at most once. -/
theorem c2_timeout_spec (st : WsClientState) (seq : String) (m : WsMsg)
    (hnd : tableNodup st.pending = true)
    (hpend : containsKey st.pending seq = true)
    (hseq : m.sequence = some seq)
    (hact : m.action = none) :
    control_device_timeout st seq
      = ({ st with pending := popKey st.pending seq },
         { error := 408, sequence := some seq, msg := some "Request Timeout" })
    ∧ containsKey (popKey st.pending seq) seq = false
    ∧ handle_ws_message { st with pending := popKey st.pending seq } m
      = Except.ok { st with pending := popKey st.pending seq } := by
  have hgone : lookup (popKey st.pending seq) seq = none := lookup_popKey_self hnd seq
  refine ⟨?_, containsKey_eq_false.mpr hgone, ?_⟩
  · simp [control_device_timeout, hpend, timeoutAck]
  · simp [handle_ws_message, hseq, hact, pyStrOfJson, containsKey, hgone,
      WS_MSG_ACTION_UPDATE, WS_MSG_ACTION_SYSMSG]

/-- Witness for C2 at a concrete one-entry pending table. -/
theorem c2_witness :
    control_device_timeout ⟨[("5", 0)], 1, [], ⟨[], [], []⟩⟩ "5"
      = (⟨popKey [("5", 0)] "5", 1, [], ⟨[], [], []⟩⟩,
         { error := 408, sequence := some "5", msg := some "Request Timeout" })
    ∧ containsKey (popKey [("5", 0)] "5") "5" = false
    ∧ handle_ws_message ⟨popKey [("5", 0)] "5", 1, [], ⟨[], [], []⟩⟩
        ⟨some "5", none, none, none⟩
      = Except.ok ⟨popKey [("5", 0)] "5", 1, [], ⟨[], [], []⟩⟩ :=
  c2_timeout_spec ⟨[("5", 0)], 1, [], ⟨[], [], []⟩⟩ "5" ⟨some "5", none, none, none⟩
    rfl rfl rfl rfl

/-- C5: `control_device` invoked while the client is not connected returns
immediately with the structured `error = -1` ack, registers nothing in the
pending table (the state is returned unchanged), and that ack is distinct
from every 408 timeout ack. -/
theorem c5_disconnected_fail_fast (st : WsClientState) (deviceExists wsPresent : Bool)
    (t : Nat) :
    control_device_send st false deviceExists wsPresent t
      = (st, ControlOutcome.immediateAck notConnectedAck)
    ∧ notConnectedAck.error = -1
    ∧ ∀ seq, notConnectedAck ≠ timeoutAck seq := by
  refine ⟨by simp [control_device_send], rfl, ?_⟩
  intro seq
  simp [notConnectedAck, timeoutAck]

/-- Witness for C5 at a concrete state. -/
theorem c5_witness :
    control_device_send ⟨[], 0, [], ⟨[], [], []⟩⟩ false true true 7
      = (⟨[], 0, [], ⟨[], [], []⟩⟩, ControlOutcome.immediateAck notConnectedAck)
    ∧ notConnectedAck ≠ timeoutAck "7" :=
  ⟨(c5_disconnected_fail_fast ⟨[], 0, [], ⟨[], [], []⟩⟩ true true 7).1,
   (c5_disconnected_fail_fast ⟨[], 0, [], ⟨[], [], []⟩⟩ true true 7).2.2 "7"⟩

/-- C6 counterexample: two commands sent in the same millisecond (equal
`now_timestamp()` values) receive the same correlation id, and the second
registration overwrites the first, still-unresolved pending entry (future 0
is no longer in the table), so the claimed uniqueness/no-overwrite property
is false as stated. -/
theorem c6_counterexample :
    (control_device_send ⟨[], 0, [], ⟨[], [], []⟩⟩ true true true 1000).2
      = ControlOutcome.awaitReply (genSequence 1000)
    ∧ (control_device_send ⟨[], 0, [], ⟨[], [], []⟩⟩ true true true 1000).1.pending
      = [(genSequence 1000, 0)]
    ∧ (control_device_send
        (control_device_send ⟨[], 0, [], ⟨[], [], []⟩⟩ true true true 1000).1
        true true true 1000).2 = ControlOutcome.awaitReply (genSequence 1000)
    ∧ (control_device_send
        (control_device_send ⟨[], 0, [], ⟨[], [], []⟩⟩ true true true 1000).1
        true true true 1000).1.pending = [(genSequence 1000, 1)] :=
  ⟨rfl, rfl, rfl, rfl⟩

/-- C6 amended: correlation ids are distinct (and registration preserves all
other pending entries) whenever the generating `now_timestamp()` values
differ; only two requests within the same millisecond share an id, in which
case the later registration overwrites the earlier entry. -/
theorem c6_amended_unique_per_millisecond :
    (∀ t1 t2 : Nat, t1 ≠ t2 → genSequence t1 ≠ genSequence t2)
    ∧ ∀ (p : List (String × Nat)) (seq : String) (fid : Nat),
        containsKey p seq = false →
        ∀ k f, lookup p k = some f → lookup (setKey p seq fid) k = some f := by
  constructor
  · intro t1 t2 hne heq
    exact hne (decRepr_inj heq)
  · intro p seq fid hfree k f hk
    by_cases hks : seq = k
    · subst hks
      rw [containsKey_eq_false.mp hfree] at hk
      cases hk
    · rw [lookup_setKey_ne _ _ hks]
      exact hk

/-- Witness for the amended C6 at concrete timestamps and table. -/
theorem c6_amended_witness :
    genSequence 1000 ≠ genSequence 1001
    ∧ lookup (setKey [("7", 42)] "8" 43) "7" = some 42 :=
  ⟨c6_amended_unique_per_millisecond.1 1000 1001 (by decide),
   c6_amended_unique_per_millisecond.2 [("7", 42)] "8" 43 rfl "7" 42 rfl⟩

/-- C7: for a uiid of the multi-relay group, translating set-switch(true)
produces `{"switches": [...]}` with exactly four `{switch, outlet}` records:
outlet 0 is `"on"`, outlets 1..3 are `"off"`. -/
theorem c7_four_relay_switch_payload (uiid : Int)
    (h : uiid ∈ MULTIPLE_SINGLE_PROTOCOL_UIIDS) :
    gen_control_switch_params uiid true
      = Val.dict [("switches", Val.arr
          [Val.dict [("switch", Val.vstr "on"), ("outlet", Val.vint 0)],
           Val.dict [("switch", Val.vstr "off"), ("outlet", Val.vint 1)],
           Val.dict [("switch", Val.vstr "off"), ("outlet", Val.vint 2)],
           Val.dict [("switch", Val.vstr "off"), ("outlet", Val.vint 3)]])] := by
  unfold gen_control_switch_params
  rw [if_pos h]
  rfl

/-- Witness for C7 at uiid 191. -/
theorem c7_witness :
    gen_control_switch_params 191 true
      = Val.dict [("switches", Val.arr
          [Val.dict [("switch", Val.vstr "on"), ("outlet", Val.vint 0)],
           Val.dict [("switch", Val.vstr "off"), ("outlet", Val.vint 1)],
           Val.dict [("switch", Val.vstr "off"), ("outlet", Val.vint 2)],
           Val.dict [("switch", Val.vstr "off"), ("outlet", Val.vint 3)]])] :=
  c7_four_relay_switch_payload 191 (by decide)

/-- C8: for every native brightness value in 1..100 the set-then-get
round trip returns exactly the original value (hence within one rounding
unit); the underlying remap is linear with positive slope, both directions
are monotone, and both directions round to the nearest value (within half a
unit of the exact linear image). `map_value_general` is modelled from the
spec because `src/uiid/utils.py` is absent from the sources. -/
theorem c8_brightness_remap (v : Int) (_h1 : 1 ≤ v) (_h2 : v ≤ 100) :
    gen_control_brightness (get_brightess v) = v
    ∧ (gen_control_brightness (get_brightess v) - v).natAbs ≤ 1
    ∧ (∀ x y : ℚ, map_value_general x ewelink_brightness_range ha_brightness_range
          - map_value_general y ewelink_brightness_range ha_brightness_range
        = (x - y) * (254 / 99))
    ∧ (∀ a b : Int, a ≤ b → get_brightess a ≤ get_brightess b)
    ∧ (∀ a b : Int, a ≤ b → gen_control_brightness a ≤ gen_control_brightness b)
    ∧ |(get_brightess v : ℚ)
        - map_value_general v ewelink_brightness_range ha_brightness_range| ≤ 1 / 2
    ∧ |(gen_control_brightness v : ℚ)
        - map_value_general v ha_brightness_range ewelink_brightness_range| ≤ 1 / 2 := by
  have hnear : |(get_brightess v : ℚ)
      - map_value_general v ewelink_brightness_range ha_brightness_range| ≤ 1 / 2 :=
    pyRound_abs_le _
  have hkey : map_value_general (get_brightess v : ℚ) ha_brightness_range
        ewelink_brightness_range - (v : ℚ)
      = ((get_brightess v : ℚ)
          - map_value_general v ewelink_brightness_range ha_brightness_range)
        * (99 / 254) := by
    simp only [map_value_general, ewelink_brightness_range, ha_brightness_range]
    ring
  have hclose : |map_value_general (get_brightess v : ℚ) ha_brightness_range
      ewelink_brightness_range - (v : ℚ)| < 1 / 2 := by
    rw [hkey, abs_mul]
    have h99 : |(99 : ℚ) / 254| = 99 / 254 := by
      rw [abs_of_pos]
      norm_num
    rw [h99]
    nlinarith [hnear, abs_nonneg ((get_brightess v : ℚ)
      - map_value_general v ewelink_brightness_range ha_brightness_range)]
  have hrt : gen_control_brightness (get_brightess v) = v :=
    pyRound_eq_of_close hclose
  refine ⟨hrt, by rw [hrt]; simp, ?_, ?_, ?_, hnear, pyRound_abs_le _⟩
  · intro x y
    simp only [map_value_general, ewelink_brightness_range, ha_brightness_range]
    ring
  · intro a b hab
    apply pyRound_mono
    simp only [map_value_general, ewelink_brightness_range, ha_brightness_range]
    have : (a : ℚ) ≤ (b : ℚ) := by exact_mod_cast hab
    linarith
  · intro a b hab
    apply pyRound_mono
    simp only [map_value_general, ewelink_brightness_range, ha_brightness_range]
    have : (a : ℚ) ≤ (b : ℚ) := by exact_mod_cast hab
    linarith

/-- Witness for C8 at native brightness 50. -/
theorem c8_witness :
    gen_control_brightness (get_brightess 50) = 50 :=
  (c8_brightness_remap 50 (by decide) (by decide)).1

/-- C9: on a device lacking the corresponding params field, the rssi,
temperature and humidity readers return `None`, but `get_battery_value`
reaches `round(int(None))` and raises `TypeError` instead of returning
`None` — the concrete evaluation showing the battery reader contradicts the
claim while its siblings satisfy it. -/
theorem c9_battery_reader_raises_on_missing_field :
    get_battery_value [] = Except.error "TypeError: int() argument is None"
    ∧ get_rssi_value [] = none
    ∧ get_temperature_value [] = Except.ok none
    ∧ get_humidity_value [] = Except.ok none :=
  ⟨rfl, rfl, rfl, rfl⟩

/-- C10: a state-push or availability-push for a device id absent from the
store leaves the coordinator state (store, handler registry, event log)
completely unchanged and invokes no event handler. -/
theorem c10_push_unknown_device_noop (st : CoordState) (device_id : String)
    (params online : Val) (h : lookup st.data device_id = none) :
    update_entity_state st device_id params = Except.ok st
    ∧ update_entity_available st device_id online = st := by
  constructor
  · simp [update_entity_state, h]
  · simp [update_entity_available, h]

/-- Witness for C10 at an empty store. -/
theorem c10_witness :
    update_entity_state ⟨[], [], []⟩ "dev1" (Val.dict [("switch", Val.vstr "on")])
      = Except.ok ⟨[], [], []⟩
    ∧ update_entity_available ⟨[], [], []⟩ "dev1" (Val.vbool false) = ⟨[], [], []⟩ :=
  c10_push_unknown_device_noop ⟨[], [], []⟩ "dev1"
    (Val.dict [("switch", Val.vstr "on")]) (Val.vbool false) rfl

end EWeLink
